import Mathlib

/-!
Shallow embedding of the SCL TOU rate-comparison tool
(src/usage_data.rs, src/rate_calculator.rs, src/main.rs).

Modelling conventions:
- `BigDecimal` values are modelled as `Rat` (ℚ): arbitrary-precision decimal
  arithmetic is exact, and decimals embed into the rationals with `+`, `-`, `*`
  preserved exactly.
- `jiff::civil::Time` is modelled as a record of integer hour/minute/second
  fields; only the hour is ever inspected by the rate calculator.
- Rust panics (`assert_eq!` in `calculate_tou_cost`, the defensive arm in
  `TimeOfUse::from_time`, `.expect(..)` in ingestion) are modelled as `none`
  in an `Option` result: `none` means the program aborts fatally.
- Iterators over usage entries are modelled as `List UsageEntry`; `.sum()` over
  `BigDecimal` folds with exact addition, modelled by `List.sum` over ℚ.
-/

/-- Wall-clock time of day, modelling `jiff::civil::Time`. Only the hour field
is read by the rate calculator; `jiff` guarantees 0 ≤ hour ≤ 23 for values it
constructs, but the field is an unconstrained integer here so that the
defensive out-of-range arm of `TimeOfUse::from_time` can be stated. -/
structure Time where
  hour : Int
  minute : Int
  second : Int
deriving DecidableEq, Repr

/-- The TOU bucket enumeration from src/rate_calculator.rs. -/
inductive TimeOfUse where
  | Off
  | Mid
  | Peak
deriving DecidableEq, Fintype, Repr

/-- Translation of `TimeOfUse::from_time` (src/rate_calculator.rs lines 13–23):
hours 0–5 map to Off, 6–16 and 21–23 to Mid, 17–20 to Peak, and any other
hour hits the defensive arm, which aborts fatally (modelled as `none`). -/
def TimeOfUse.from_time (time : Time) : Option TimeOfUse :=
  let hour := time.hour
  if 0 ≤ hour ∧ hour ≤ 5 then some TimeOfUse.Off
  else if (6 ≤ hour ∧ hour ≤ 16) ∨ (21 ≤ hour ∧ hour ≤ 23) then some TimeOfUse.Mid
  else if 17 ≤ hour ∧ hour ≤ 20 then some TimeOfUse.Peak
  else none

/-- Translation of `UsageEntry` (src/usage_data.rs). -/
structure UsageEntry where
  start_time : Time
  end_time : Time
  imported : Rat
  exported : Rat
deriving DecidableEq, Repr

/-- Translation of `UsageEntry::kwh_total` (src/usage_data.rs lines 12–16). -/
def UsageEntry.kwh_total (e : UsageEntry) : Rat :=
  e.imported - e.exported

/-- Translation of the `TouRates` record (src/main.rs). -/
structure TouRates where
  off : Rat
  mid : Rat
  peak : Rat
deriving DecidableEq, Repr

/-- The per-entry closure inside `calculate_tou_cost`
(src/rate_calculator.rs lines 29–42): classify both endpoints (a fatal abort —
`none` — if either hour is out of range), assert they agree (fatal abort if
not), then multiply the matching bucket's rate by the entry's net energy. -/
def touEntryCost (rate : TouRates) (entry : UsageEntry) : Option Rat := do
  let tou_start ← TimeOfUse.from_time entry.start_time
  let tou_end ← TimeOfUse.from_time entry.end_time
  if tou_start = tou_end then
    pure (match tou_start with
      | TimeOfUse.Off => rate.off * entry.kwh_total
      | TimeOfUse.Mid => rate.mid * entry.kwh_total
      | TimeOfUse.Peak => rate.peak * entry.kwh_total)
  else
    none

/-- Translation of `calculate_tou_cost` (src/rate_calculator.rs lines 25–44):
map each entry through the per-entry closure and sum; a panic while consuming
any entry aborts the whole computation (`none`). -/
def calculate_tou_cost (rate : TouRates) (usage_data : List UsageEntry) : Option Rat :=
  match usage_data with
  | [] => some 0
  | entry :: rest => do
    let c ← touEntryCost rate entry
    let s ← calculate_tou_cost rate rest
    pure (c + s)

/-- Translation of `calculate_base_cost` (src/rate_calculator.rs lines 46–51). -/
def calculate_base_cost (rate : Rat) (usage_data : List UsageEntry) : Rat :=
  (usage_data.map (fun entry => rate * entry.kwh_total)).sum

/-- The joint classification of an entry's two endpoints: `some b` when both
endpoints classify to bucket `b`, `none` when either endpoint is out of range
or the two buckets differ. Helper for stating the claims. -/
def entryBucket (e : UsageEntry) : Option TimeOfUse :=
  match TimeOfUse.from_time e.start_time, TimeOfUse.from_time e.end_time with
  | some s, some t => if s = t then some s else none
  | _, _ => none

/-- The rate a `TouRates` schedule assigns to a bucket. -/
def TouRates.rateOf (r : TouRates) : TimeOfUse → Rat
  | TimeOfUse.Off => r.off
  | TimeOfUse.Mid => r.mid
  | TimeOfUse.Peak => r.peak

/-- Total net energy of the entries of a list whose endpoints both classify to
bucket `b`. -/
def bucketNet (entries : List UsageEntry) (b : TimeOfUse) : Rat :=
  ((entries.filter (fun e => entryBucket e == some b)).map UsageEntry.kwh_total).sum

/-- Numeric value of a list of decimal digit characters, most significant
first. -/
def digitsToNat (cs : List Char) : Nat :=
  cs.foldl (fun a c => a * 10 + (c.toNat - 48)) 0

/-- Modelled from the spec: the decimal parsing used at `record[4].parse()` and
`record[5].parse()` in src/main.rs is the `FromStr` instance of the
`bigdecimal` library, whose code is not in this repository. Its grammar is an
optional sign, integer digits, an optional fractional part, and an optional
exponent, with at least one mantissa digit; the spec (§4.1, §9) calls the
fields "decimal numbers" parsed with a "fatal error on unparseable format".
`none` models the parse failure. -/
def parseBigDecimal (s : String) : Option Rat :=
  let cs := s.data
  let signSplit : Int × List Char :=
    match cs with
    | '+' :: rest => (1, rest)
    | '-' :: rest => (-1, rest)
    | _ => (1, cs)
  let sign := signSplit.1
  let body := signSplit.2
  let intPart := body.takeWhile Char.isDigit
  let afterInt := body.dropWhile Char.isDigit
  let fracSplit : List Char × List Char :=
    match afterInt with
    | '.' :: rest => (rest.takeWhile Char.isDigit, rest.dropWhile Char.isDigit)
    | _ => ([], afterInt)
  let fracPart := fracSplit.1
  let afterFrac := fracSplit.2
  if intPart.isEmpty && fracPart.isEmpty then none
  else
    let base : Rat :=
      (sign * (digitsToNat (intPart ++ fracPart) : Int) : Rat) / (10 : Rat) ^ fracPart.length
    match afterFrac with
    | [] => some base
    | c :: rest =>
      if c = 'e' ∨ c = 'E' then
        let expSplit : Int × List Char :=
          match rest with
          | '+' :: r2 => (1, r2)
          | '-' :: r2 => (-1, r2)
          | _ => (1, rest)
        if expSplit.2.isEmpty || !expSplit.2.all Char.isDigit then none
        else some (base * (10 : Rat) ^ (expSplit.1 * (digitsToNat expSplit.2 : Int)))
      else none

/-- Numeric value of a decimal digit character, as an integer. -/
def digitVal (c : Char) : Int :=
  (c.toNat : Int) - 48

/-- Modelled from the spec: the time parsing used at `Time::from_str` in
src/main.rs is the `FromStr` instance of `jiff::civil::Time`, whose code is
not in this repository; the spec (§4.1) says start and end times are parsed
"as time-of-day values (fatal error on unparseable format)". Modelled for the
time-of-day strings of the usage CSV: `HH:MM:SS` or `HH:MM`, with in-range
components; anything else fails (`none`). -/
def parseTime (s : String) : Option Time :=
  match s.data with
  | [h1, h2, ':', m1, m2, ':', c1, c2] =>
    if h1.isDigit && h2.isDigit && m1.isDigit && m2.isDigit && c1.isDigit && c2.isDigit then
      let h := 10 * digitVal h1 + digitVal h2
      let m := 10 * digitVal m1 + digitVal m2
      let sec := 10 * digitVal c1 + digitVal c2
      if h ≤ 23 ∧ m ≤ 59 ∧ sec ≤ 59 then some (Time.mk h m sec) else none
    else none
  | [h1, h2, ':', m1, m2] =>
    if h1.isDigit && h2.isDigit && m1.isDigit && m2.isDigit then
      let h := 10 * digitVal h1 + digitVal h2
      let m := 10 * digitVal m1 + digitVal m2
      if h ≤ 23 ∧ m ≤ 59 then some (Time.mk h m 0) else none
    else none
  | _ => none

/-- Translation of `EXPECTED_HEADERS` (src/main.rs lines 162–172). -/
def EXPECTED_HEADERS : List String :=
  ["TYPE", "DATE", "START TIME", "END TIME", "IMPORT (kWh)", "EXPORT (kWh)", "NOTES"]

/-- Translation of the per-record closure in `read_usage_data`
(src/main.rs lines 203–214). A record is a list of its fields (the CSV reader
runs in flexible mode, so the field count varies per record). Outer `none`
models a fatal abort: indexing a missing field (`record[i]` out of bounds) or
a failed `.expect(..)` on a field parse — all fatal outcomes collapse to the
same `none`, so the exact interleaving of index and parse steps is immaterial.
`some none` models a row filtered out because its first field is not the
sentinel; `some (some e)` a kept row. -/
def processRecord (record : List String) : Option (Option UsageEntry) := do
  let ty ← record[0]?
  if ty = "Electric usage" then
    let st ← record[2]?
    let et ← record[3]?
    let im ← record[4]?
    let ex ← record[5]?
    let t1 ← parseTime st
    let t2 ← parseTime et
    let i ← parseBigDecimal im
    let x ← parseBigDecimal ex
    pure (some (UsageEntry.mk t1 t2 i x))
  else
    pure none

/-- The `filter_map`/`collect` loop of `read_usage_data` over the data records
(src/main.rs lines 203–215): kept rows become entries in file order, filtered
rows contribute nothing, and a fatal abort on any record aborts the whole
ingestion. -/
def ingest_rows (rows : List (List String)) : Option (List UsageEntry) :=
  match rows with
  | [] => some []
  | r :: rest => do
    let entry? ← processRecord r
    let entries ← ingest_rows rest
    pure (match entry? with
      | some e => e :: entries
      | none => entries)

/-- Translation of `read_usage_data` (src/main.rs lines 174–216) from its
header-validation step on: the located header record and the data records are
given as field lists. If the header differs from `EXPECTED_HEADERS` the
program aborts (`none`, modelling the panic at lines 197–202); otherwise the
data records are filtered and parsed in order. -/
def read_usage_data (headers : List String) (rows : List (List String)) :
    Option (List UsageEntry) :=
  if headers = EXPECTED_HEADERS then ingest_rows rows else none

/-! ## Helper lemmas -/

/-- The per-entry closure equals the joint classification mapped through the
bucket's rate. -/
theorem touEntryCost_eq_bucket (r : TouRates) (e : UsageEntry) :
    touEntryCost r e = (entryBucket e).map (fun b => r.rateOf b * e.kwh_total) := by
  unfold touEntryCost entryBucket
  cases hs : TimeOfUse.from_time e.start_time with
  | none => rfl
  | some s =>
    cases ht : TimeOfUse.from_time e.end_time with
    | none => rfl
    | some t =>
      by_cases hst : s = t
      · subst hst
        cases s <;> simp [TouRates.rateOf]
      · simp [hst]

/-- Unfolding lemma for `calculate_tou_cost` on a cons cell. -/
theorem calculate_tou_cost_cons (r : TouRates) (e : UsageEntry) (l : List UsageEntry) :
    calculate_tou_cost r (e :: l) =
      (touEntryCost r e).bind fun c => (calculate_tou_cost r l).bind fun s => some (c + s) :=
  rfl

/-- Joint classification succeeds exactly when both endpoints classify to the
same bucket. -/
theorem entryBucket_eq_some_iff (e : UsageEntry) (b : TimeOfUse) :
    entryBucket e = some b ↔
      TimeOfUse.from_time e.start_time = some b ∧
        TimeOfUse.from_time e.end_time = some b := by
  unfold entryBucket
  cases hs : TimeOfUse.from_time e.start_time with
  | none => simp
  | some s =>
    cases ht : TimeOfUse.from_time e.end_time with
    | none => simp
    | some t =>
      change (if s = t then some s else none) = some b ↔ _
      by_cases hst : s = t
      · subst hst
        simp
      · rw [if_neg hst]
        constructor
        · intro hc
          exact Option.noConfusion hc
        · rintro ⟨h1, h2⟩
          exact absurd ((Option.some_inj.mp h1).trans (Option.some_inj.mp h2).symm) hst

/-- Peeling one entry off a bucket's net-energy total. -/
theorem bucketNet_cons (e : UsageEntry) (l : List UsageEntry) (b : TimeOfUse) :
    bucketNet (e :: l) b =
      (if entryBucket e = some b then e.kwh_total else 0) + bucketNet l b := by
  unfold bucketNet
  rw [List.filter_cons]
  by_cases h : entryBucket e = some b
  · simp [h]
  · simp [h]

/-- When every entry's endpoints agree on a bucket, the TOU cost decomposes as
the bucket-weighted sum of net energies. -/
theorem calculate_tou_cost_buckets (r : TouRates) (entries : List UsageEntry)
    (h : ∀ e ∈ entries, (entryBucket e).isSome) :
    calculate_tou_cost r entries =
      some (r.off * bucketNet entries TimeOfUse.Off
        + r.mid * bucketNet entries TimeOfUse.Mid
        + r.peak * bucketNet entries TimeOfUse.Peak) := by
  induction entries with
  | nil =>
    simp [calculate_tou_cost, bucketNet]
  | cons e l ih =>
    have he : (entryBucket e).isSome := h e (List.mem_cons_self e l)
    obtain ⟨b, hb⟩ := Option.isSome_iff_exists.mp he
    have hl : ∀ x ∈ l, (entryBucket x).isSome := fun x hx => h x (List.mem_cons_of_mem e hx)
    rw [calculate_tou_cost_cons, touEntryCost_eq_bucket, hb, ih hl]
    simp only [Option.map_some', Option.some_bind]
    rw [bucketNet_cons, bucketNet_cons, bucketNet_cons, hb]
    cases b <;> simp [TouRates.rateOf] <;> ring

/-- A fatal abort on any entry aborts the whole TOU cost computation. -/
theorem calculate_tou_cost_none_of_mem (r : TouRates) (entries : List UsageEntry)
    (e : UsageEntry) (he : e ∈ entries) (hn : touEntryCost r e = none) :
    calculate_tou_cost r entries = none := by
  induction entries with
  | nil => cases he
  | cons a l ih =>
    rw [calculate_tou_cost_cons]
    rcases List.mem_cons.mp he with rfl | hmem
    · rw [hn]
      rfl
    · rw [ih hmem]
      cases touEntryCost r a <;> rfl

/-- An entry whose endpoints classify to different buckets makes the per-entry
closure abort. -/
theorem touEntryCost_none_of_straddle (r : TouRates) (e : UsageEntry)
    (bs be : TimeOfUse) (h1 : TimeOfUse.from_time e.start_time = some bs)
    (h2 : TimeOfUse.from_time e.end_time = some be) (hne : bs ≠ be) :
    touEntryCost r e = none := by
  unfold touEntryCost
  rw [h1, h2]
  simp [hne]

/-- Unfolding lemma for `calculate_base_cost` on a cons cell. -/
theorem base_cost_cons (r : Rat) (e : UsageEntry) (l : List UsageEntry) :
    calculate_base_cost r (e :: l) = r * e.kwh_total + calculate_base_cost r l := by
  simp [calculate_base_cost]

/-- Flat-rate totals depend only on the energy fields of the entries, never on
their times. -/
theorem base_cost_eq_of_energies_eq (flat : Rat) :
    ∀ l1 l2 : List UsageEntry,
      l1.map (fun e => (e.imported, e.exported)) = l2.map (fun e => (e.imported, e.exported)) →
      calculate_base_cost flat l1 = calculate_base_cost flat l2 := by
  intro l1
  induction l1 with
  | nil =>
    intro l2 h
    cases l2 with
    | nil => rfl
    | cons b l2 => exact absurd h (by simp)
  | cons a l1 ih =>
    intro l2 h
    cases l2 with
    | nil => exact absurd h (by simp)
    | cons b l2 =>
      simp only [List.map_cons, List.cons.injEq] at h
      obtain ⟨hab, hrest⟩ := h
      rw [base_cost_cons, base_cost_cons, ih l2 hrest]
      have h1 : a.imported = b.imported := congrArg Prod.fst hab
      have h2 : a.exported = b.exported := congrArg Prod.snd hab
      unfold UsageEntry.kwh_total
      rw [h1, h2]

/-- Net energy of a bucket is invariant under permutation of the entries. -/
theorem bucketNet_perm (l1 l2 : List UsageEntry) (hp : l1.Perm l2) (b : TimeOfUse) :
    bucketNet l1 b = bucketNet l2 b :=
  ((hp.filter _).map _).sum_eq

/-! ## Claims -/

/-- C1: for every rate schedule and every entry list in which each entry's
start and end times classify to the same TOU bucket, `calculate_tou_cost`
returns (rather than aborting) the sum over the three buckets of that bucket's
rate times the total net energy of the entries whose endpoints both classify
to that bucket, exactly. -/
theorem tou_cost_is_bucket_weighted_sum (r : TouRates) (entries : List UsageEntry)
    (h : ∀ e ∈ entries, ∃ b, TimeOfUse.from_time e.start_time = some b ∧
        TimeOfUse.from_time e.end_time = some b) :
    calculate_tou_cost r entries =
      some (r.off * bucketNet entries TimeOfUse.Off
        + r.mid * bucketNet entries TimeOfUse.Mid
        + r.peak * bucketNet entries TimeOfUse.Peak) := by
  apply calculate_tou_cost_buckets
  intro e he
  obtain ⟨b, h1, h2⟩ := h e he
  rw [Option.isSome_iff_exists]
  exact ⟨b, (entryBucket_eq_some_iff e b).mpr ⟨h1, h2⟩⟩

/-- C1 witness: three entries, one per bucket, at rates 1/2/3. -/
theorem tou_cost_is_bucket_weighted_sum_witness :
    calculate_tou_cost (TouRates.mk 1 2 3)
        [UsageEntry.mk (Time.mk 2 0 0) (Time.mk 2 30 0) 5 1,
         UsageEntry.mk (Time.mk 10 0 0) (Time.mk 10 30 0) 2 0,
         UsageEntry.mk (Time.mk 18 0 0) (Time.mk 18 30 0) 3 1] =
      some ((TouRates.mk 1 2 3).off * bucketNet
          [UsageEntry.mk (Time.mk 2 0 0) (Time.mk 2 30 0) 5 1,
           UsageEntry.mk (Time.mk 10 0 0) (Time.mk 10 30 0) 2 0,
           UsageEntry.mk (Time.mk 18 0 0) (Time.mk 18 30 0) 3 1] TimeOfUse.Off
        + (TouRates.mk 1 2 3).mid * bucketNet
          [UsageEntry.mk (Time.mk 2 0 0) (Time.mk 2 30 0) 5 1,
           UsageEntry.mk (Time.mk 10 0 0) (Time.mk 10 30 0) 2 0,
           UsageEntry.mk (Time.mk 18 0 0) (Time.mk 18 30 0) 3 1] TimeOfUse.Mid
        + (TouRates.mk 1 2 3).peak * bucketNet
          [UsageEntry.mk (Time.mk 2 0 0) (Time.mk 2 30 0) 5 1,
           UsageEntry.mk (Time.mk 10 0 0) (Time.mk 10 30 0) 2 0,
           UsageEntry.mk (Time.mk 18 0 0) (Time.mk 18 30 0) 3 1] TimeOfUse.Peak) :=
  tou_cost_is_bucket_weighted_sum (TouRates.mk 1 2 3) _ (by decide)

/-- C2: classification follows the fixed table — hours 0–5 are Off, 6–16 and
21–23 are Mid, 17–20 are Peak — and any hour outside 0–23 makes
`TimeOfUse.from_time` abort fatally. -/
theorem from_time_matches_table (t : Time) :
    ((0 ≤ t.hour ∧ t.hour ≤ 5) → TimeOfUse.from_time t = some TimeOfUse.Off)
    ∧ (((6 ≤ t.hour ∧ t.hour ≤ 16) ∨ (21 ≤ t.hour ∧ t.hour ≤ 23)) →
        TimeOfUse.from_time t = some TimeOfUse.Mid)
    ∧ ((17 ≤ t.hour ∧ t.hour ≤ 20) → TimeOfUse.from_time t = some TimeOfUse.Peak)
    ∧ ((t.hour < 0 ∨ 23 < t.hour) → TimeOfUse.from_time t = none) := by
  simp only [TimeOfUse.from_time]
  refine ⟨?_, ?_, ?_, ?_⟩ <;> intro h <;> split_ifs <;>
    first
      | rfl
      | (exfalso; omega)

/-- C2 witness: hours 3, 10, 18 and 24 hit the Off, Mid, Peak and fatal arms
respectively. -/
theorem from_time_matches_table_witness :
    TimeOfUse.from_time (Time.mk 3 0 0) = some TimeOfUse.Off
    ∧ TimeOfUse.from_time (Time.mk 10 0 0) = some TimeOfUse.Mid
    ∧ TimeOfUse.from_time (Time.mk 18 0 0) = some TimeOfUse.Peak
    ∧ TimeOfUse.from_time (Time.mk 24 0 0) = none :=
  ⟨(from_time_matches_table (Time.mk 3 0 0)).1 (by decide),
   (from_time_matches_table (Time.mk 10 0 0)).2.1 (by decide),
   (from_time_matches_table (Time.mk 18 0 0)).2.2.1 (by decide),
   (from_time_matches_table (Time.mk 24 0 0)).2.2.2 (by decide)⟩

/-- C3: if any entry's start and end times classify to different TOU buckets,
`calculate_tou_cost` aborts fatally (returns `none`) instead of returning a
cost — no splitting or prorating. -/
theorem tou_cost_fatal_on_straddling (r : TouRates) (entries : List UsageEntry)
    (h : ∃ e ∈ entries, ∃ bs be, TimeOfUse.from_time e.start_time = some bs ∧
        TimeOfUse.from_time e.end_time = some be ∧ bs ≠ be) :
    calculate_tou_cost r entries = none := by
  obtain ⟨e, he, bs, be, h1, h2, hne⟩ := h
  exact calculate_tou_cost_none_of_mem r entries e he
    (touEntryCost_none_of_straddle r e bs be h1 h2 hne)

/-- C3 witness: a 16:00–17:00 interval straddles the Mid/Peak boundary. -/
theorem tou_cost_fatal_on_straddling_witness :
    calculate_tou_cost (TouRates.mk 4 5 6)
      [UsageEntry.mk (Time.mk 16 0 0) (Time.mk 17 0 0) 1 0] = none :=
  tou_cost_fatal_on_straddling (TouRates.mk 4 5 6) _ (by decide)

/-- C4: an entry's derived net energy is exactly imported minus exported, and
is negative whenever exported exceeds imported. -/
theorem kwh_total_is_net (e : UsageEntry) :
    e.kwh_total = e.imported - e.exported
    ∧ (e.imported < e.exported → e.kwh_total < 0) := by
  refine ⟨rfl, fun h => ?_⟩
  unfold UsageEntry.kwh_total
  exact sub_neg.mpr h

/-- C4 witness: an entry exporting more than it imports has negative net. -/
theorem kwh_total_is_net_witness :
    (UsageEntry.mk (Time.mk 12 0 0) (Time.mk 12 30 0) 1 2).kwh_total =
        (UsageEntry.mk (Time.mk 12 0 0) (Time.mk 12 30 0) 1 2).imported
          - (UsageEntry.mk (Time.mk 12 0 0) (Time.mk 12 30 0) 1 2).exported
    ∧ (UsageEntry.mk (Time.mk 12 0 0) (Time.mk 12 30 0) 1 2).kwh_total < 0 :=
  ⟨(kwh_total_is_net _).1,
   (kwh_total_is_net _).2 (by norm_num)⟩

/-- C6: the flat-rate total is linear in the rate — scaling the rate by k
scales the total by k, exactly. -/
theorem base_cost_linear_in_rate (k r : Rat) (entries : List UsageEntry) :
    calculate_base_cost (k * r) entries = k * calculate_base_cost r entries := by
  induction entries with
  | nil => simp [calculate_base_cost]
  | cons e l ih =>
    rw [base_cost_cons, base_cost_cons, ih]
    ring

/-- C7: permuting the entry list changes neither total — the flat-rate total
unconditionally, and the TOU total under the precondition that every entry's
endpoints classify to the same bucket — because all arithmetic is exact and
addition is associative and commutative. -/
theorem cost_totals_permutation_invariant (r : Rat) (tr : TouRates)
    (l1 l2 : List UsageEntry) (hp : l1.Perm l2) :
    calculate_base_cost r l1 = calculate_base_cost r l2
    ∧ ((∀ e ∈ l1, ∃ b, TimeOfUse.from_time e.start_time = some b ∧
          TimeOfUse.from_time e.end_time = some b) →
        calculate_tou_cost tr l1 = calculate_tou_cost tr l2) := by
  constructor
  · exact (hp.map _).sum_eq
  · intro h
    have hb1 : ∀ e ∈ l1, (entryBucket e).isSome := by
      intro e he
      obtain ⟨b, h1, h2⟩ := h e he
      rw [Option.isSome_iff_exists]
      exact ⟨b, (entryBucket_eq_some_iff e b).mpr ⟨h1, h2⟩⟩
    have hb2 : ∀ e ∈ l2, (entryBucket e).isSome := fun e he => hb1 e (hp.mem_iff.mpr he)
    rw [calculate_tou_cost_buckets tr l1 hb1, calculate_tou_cost_buckets tr l2 hb2,
      bucketNet_perm l1 l2 hp, bucketNet_perm l1 l2 hp, bucketNet_perm l1 l2 hp]

/-- C7 witness: swapping two entries (one Off, one Mid) changes neither total. -/
theorem cost_totals_permutation_invariant_witness :
    calculate_base_cost 2
        [UsageEntry.mk (Time.mk 2 0 0) (Time.mk 2 30 0) 5 1,
         UsageEntry.mk (Time.mk 10 0 0) (Time.mk 10 30 0) 2 0] =
      calculate_base_cost 2
        [UsageEntry.mk (Time.mk 10 0 0) (Time.mk 10 30 0) 2 0,
         UsageEntry.mk (Time.mk 2 0 0) (Time.mk 2 30 0) 5 1]
    ∧ calculate_tou_cost (TouRates.mk 1 2 3)
        [UsageEntry.mk (Time.mk 2 0 0) (Time.mk 2 30 0) 5 1,
         UsageEntry.mk (Time.mk 10 0 0) (Time.mk 10 30 0) 2 0] =
      calculate_tou_cost (TouRates.mk 1 2 3)
        [UsageEntry.mk (Time.mk 10 0 0) (Time.mk 10 30 0) 2 0,
         UsageEntry.mk (Time.mk 2 0 0) (Time.mk 2 30 0) 5 1] :=
  ⟨(cost_totals_permutation_invariant 2 (TouRates.mk 1 2 3) _ _
      (List.Perm.swap _ _ _)).1,
   (cost_totals_permutation_invariant 2 (TouRates.mk 1 2 3) _ _
      (List.Perm.swap _ _ _)).2 (by decide)⟩

/-- C10: the flat-rate calculation is total and time-blind: on a list with a
straddling entry, `calculate_tou_cost` aborts fatally, while
`calculate_base_cost` still returns a value that depends only on the entries'
energy fields (replacing the times arbitrarily leaves it unchanged), so the
straddling is never detected on the flat-rate path. -/
theorem base_cost_total_and_time_blind (r : Rat) (tr : TouRates)
    (entries : List UsageEntry)
    (h : ∃ e ∈ entries, ∃ bs be, TimeOfUse.from_time e.start_time = some bs ∧
        TimeOfUse.from_time e.end_time = some be ∧ bs ≠ be) :
    calculate_tou_cost tr entries = none
    ∧ ∀ entries2 : List UsageEntry,
        entries.map (fun e => (e.imported, e.exported)) =
          entries2.map (fun e => (e.imported, e.exported)) →
        calculate_base_cost r entries = calculate_base_cost r entries2 := by
  obtain ⟨e, he, bs, be, h1, h2, hne⟩ := h
  exact ⟨calculate_tou_cost_none_of_mem tr entries e he
      (touEntryCost_none_of_straddle tr e bs be h1 h2 hne),
    fun entries2 hmap => base_cost_eq_of_energies_eq r entries entries2 hmap⟩

/-- C10 witness: a straddling 16:00–17:00 entry aborts the TOU path but the
flat-rate total is unchanged when its times are moved to 03:00–04:00. -/
theorem base_cost_total_and_time_blind_witness :
    calculate_tou_cost (TouRates.mk 7 8 9)
        [UsageEntry.mk (Time.mk 16 0 0) (Time.mk 17 0 0) 3 1] = none
    ∧ calculate_base_cost 5 [UsageEntry.mk (Time.mk 16 0 0) (Time.mk 17 0 0) 3 1] =
        calculate_base_cost 5 [UsageEntry.mk (Time.mk 3 0 0) (Time.mk 4 0 0) 3 1] :=
  ⟨(base_cost_total_and_time_blind 5 (TouRates.mk 7 8 9) _ (by decide)).1,
   (base_cost_total_and_time_blind 5 (TouRates.mk 7 8 9) _ (by decide)).2 _ (by decide)⟩

/-- Unfolding lemma for `ingest_rows` on a cons cell. -/
theorem ingest_rows_cons (r : List String) (rows : List (List String)) :
    ingest_rows (r :: rows) =
      (processRecord r).bind fun entry? => (ingest_rows rows).bind fun entries =>
        some (match entry? with
          | some e => e :: entries
          | none => entries) :=
  rfl

/-- C8: a data row whose first column is not exactly the electricity-usage
sentinel produces no `UsageEntry` and causes no fatal error, whatever its other
fields hold and whatever its field count; dropping such a row from the input
leaves the ingestion result unchanged. -/
theorem non_usage_rows_dropped (record : List String) (ty : String)
    (h0 : record[0]? = some ty) (hne : ty ≠ "Electric usage") :
    processRecord record = some none
    ∧ ∀ rows : List (List String),
        read_usage_data EXPECTED_HEADERS (record :: rows) =
          read_usage_data EXPECTED_HEADERS rows := by
  have hp : processRecord record = some none := by
    unfold processRecord
    rw [h0]
    simp only [Option.bind_eq_bind, Option.some_bind, if_neg hne, Option.pure_def]
  refine ⟨hp, fun rows => ?_⟩
  unfold read_usage_data
  rw [if_pos rfl, if_pos rfl]
  show ingest_rows (record :: rows) = ingest_rows rows
  rw [ingest_rows_cons, hp]
  cases hrows : ingest_rows rows <;> rfl

/-- C8 witness: a non-usage row with malformed times and numbers and the wrong
field count is silently dropped. -/
theorem non_usage_rows_dropped_witness :
    processRecord [("Natural gas usage"), ("junk"), ("25:99"), ("zz"), ("-x")] = some none
    ∧ read_usage_data EXPECTED_HEADERS
        [[("Natural gas usage"), ("junk"), ("25:99"), ("zz"), ("-x")]] =
      read_usage_data EXPECTED_HEADERS [] :=
  ⟨(non_usage_rows_dropped [("Natural gas usage"), ("junk"), ("25:99"), ("zz"), ("-x")]
      ("Natural gas usage") rfl (by decide)).1,
   (non_usage_rows_dropped [("Natural gas usage"), ("junk"), ("25:99"), ("zz"), ("-x")]
      ("Natural gas usage") rfl (by decide)).2 []⟩

/-- C9: any header record that differs in any way from the exact expected
column list makes ingestion abort fatally with zero entries produced; the
ingestor never adapts to a deviating header. -/
theorem header_mismatch_fatal (headers : List String) (rows : List (List String))
    (h : headers ≠ EXPECTED_HEADERS) :
    read_usage_data headers rows = none := by
  unfold read_usage_data
  rw [if_neg h]

/-- C9 witness: swapping the IMPORT and EXPORT column names aborts ingestion
even when the data rows are well-formed. -/
theorem header_mismatch_fatal_witness :
    read_usage_data
      [("TYPE"), ("DATE"), ("START TIME"), ("END TIME"), ("EXPORT (kWh)"),
       ("IMPORT (kWh)"), ("NOTES")]
      [[("Electric usage"), ("2024-01-01"), ("10:00:00"), ("10:30:00"), ("1.500"),
        ("0.000"), ("")]] = none :=
  header_mismatch_fatal _ _ (by decide)

/-- C5 counterexample: a kept row whose IMPORT field is the negative decimal
"-1.5" does not cause a fatal ingestion error — the decimal parser accepts the
sign and the row produces a `UsageEntry` with negative imported energy. -/
theorem negative_import_produces_entry :
    processRecord
        [("Electric usage"), ("2024-01-01"), ("10:00:00"), ("10:30:00"), ("-1.5"),
         ("0.000"), ("")] =
      some (some (UsageEntry.mk (Time.mk 10 0 0) (Time.mk 10 30 0) (-(3 / 2)) 0)) := by
  with_unfolding_all rfl

/-- C5 (amended): for every kept row (first column the electricity-usage
sentinel), the imported and exported fields are parsed as decimal numbers; a
missing field or an unparseable string causes a fatal ingestion error rather
than producing a `UsageEntry`, and any produced entry carries exactly the
parsed decimal values — but no non-negativity check is performed, so a
negative decimal is accepted. -/
theorem kept_row_energy_parsing (record : List String)
    (hty : record[0]? = some ("Electric usage")) :
    ((∀ s, record[4]? = some s → parseBigDecimal s = none) → processRecord record = none)
    ∧ ((∀ s, record[5]? = some s → parseBigDecimal s = none) → processRecord record = none)
    ∧ ∀ e : UsageEntry, processRecord record = some (some e) →
        ∃ s4 s5, record[4]? = some s4 ∧ parseBigDecimal s4 = some e.imported
          ∧ record[5]? = some s5 ∧ parseBigDecimal s5 = some e.exported := by
  unfold processRecord
  rw [hty]
  simp only [Option.bind_eq_bind, Option.some_bind]
  simp only [if_true]
  rcases h2 : record[2]? with _ | st <;> rcases h3 : record[3]? with _ | et <;>
    rcases h4 : record[4]? with _ | s4 <;> rcases h5 : record[5]? with _ | s5 <;>
    try exact ⟨fun _ => rfl, fun _ => rfl, fun e he => Option.noConfusion he⟩
  simp only [Option.some_bind]
  rcases hp1 : parseTime st with _ | t1 <;> rcases hp2 : parseTime et with _ | t2 <;>
    rcases hp3 : parseBigDecimal s4 with _ | i <;> rcases hp4 : parseBigDecimal s5 with _ | x <;>
    try exact ⟨fun _ => rfl, fun _ => rfl, fun e he => Option.noConfusion he⟩
  simp only [Option.some_bind, Option.pure_def]
  refine ⟨?_, ?_, ?_⟩
  · intro hall
    have hc := hall s4 rfl
    rw [hp3] at hc
    exact Option.noConfusion hc
  · intro hall
    have hc := hall s5 rfl
    rw [hp4] at hc
    exact Option.noConfusion hc
  · intro e he
    have he2 : UsageEntry.mk t1 t2 i x = e :=
      Option.some_inj.mp (Option.some_inj.mp he)
    subst he2
    exact ⟨s4, s5, rfl, hp3, rfl, hp4⟩

/-- C5 witness: a kept row whose IMPORT field is the unparseable string "abc"
aborts ingestion fatally. -/
theorem kept_row_energy_parsing_witness :
    processRecord
        [("Electric usage"), ("2024-01-01"), ("10:00:00"), ("10:30:00"), ("abc"),
         ("0.000"), ("")] = none :=
  (kept_row_energy_parsing
      [("Electric usage"), ("2024-01-01"), ("10:00:00"), ("10:30:00"), ("abc"),
       ("0.000"), ("")] rfl).1
    (by
      intro s hs
      have hs2 : s = ("abc") := (Option.some_inj.mp hs).symm
      subst hs2
      rfl)
